import Mathlib

set_option maxHeartbeats 1000000
set_option maxRecDepth 100000

/-!
Verification development for the ConCommerce conversation-aware retrieval
pipeline: the filter merger (`frontend/lib/query-parser.ts`), the vector
search post-processing (`frontend/lib/vector-search.ts`), and the chat API
route handler (context router, budget-feasibility guard, selection
resolver).  Strings are modelled with Lean `String`; JS numbers holding
integer prices are modelled as `Int`; similarity scores as `ℚ`.  External
services (embedding provider, similarity index, text generator) enter as
explicit oracle arguments.
-/

namespace ConCommerce

/-- First index at which `pat` occurs as a contiguous run inside `s`
(`none` if it never occurs); models JavaScript `String.indexOf`. -/
def firstIdxOf (pat : List Char) : List Char → Option Nat
  | [] => if pat.isEmpty then some 0 else none
  | s@(_ :: rest) =>
    if pat.isPrefixOf s then some 0
    else (firstIdxOf pat rest).map (· + 1)

/-- JavaScript `s.includes(pat)` on strings. -/
def containsStr (s pat : String) : Bool :=
  (firstIdxOf pat.data s.data).isSome

/-- JavaScript `s.toLowerCase()`, modelled character-wise with
`Char.toLower` (the strings involved are ASCII plus the currency sign,
on which the two agree). -/
def jsToLower (s : String) : String := String.mk (s.data.map Char.toLower)

/-- JavaScript `s.trim()`: strip leading and trailing whitespace. -/
def jsTrim (s : String) : String :=
  String.mk (((s.data.dropWhile Char.isWhitespace).reverse.dropWhile Char.isWhitespace).reverse)

/-- Accumulator for `jsWords`: collect maximal whitespace-free runs. -/
def wordsAux : List Char → List Char → List (List Char)
  | [], acc => if acc.isEmpty then [] else [acc.reverse]
  | c :: rest, acc =>
    if c.isWhitespace then
      if acc.isEmpty then wordsAux rest [] else acc.reverse :: wordsAux rest []
    else wordsAux rest (c :: acc)

/-- JavaScript `s.split(/\s+/)` as used on an already-trimmed string: the
maximal whitespace-free runs.  (On the empty string JS yields one empty
token where this yields none; both counts pass the `≤ 5` word test, the
only use made of the result.) -/
def jsWords (s : String) : List (List Char) := wordsAux s.data []

/-- Duplicate removal keeping first occurrences, as JavaScript
`[...new Set(xs)]` (insertion order = first-occurrence order). -/
def setDedup : List String → List String
  | [] => []
  | x :: xs => x :: setDedup (xs.filter (fun y => y != x))
termination_by l => l.length
decreasing_by
  simp only [List.length_cons]
  exact Nat.lt_succ_of_le (List.length_filter_le _ _)

/-- Source channel of a catalog item (`'StarTech' | 'Daraz'`). -/
inductive Source
  | starTech
  | daraz
deriving DecidableEq, Repr

/-- Optional spec attributes of a catalog item (lib/types.ts `Product.specs`). -/
structure Specs where
  processor : Option String := none
  ram : Option String := none
  storage : Option String := none
  graphics : Option String := none
deriving DecidableEq, Repr

/-- Catalog item (lib/types.ts `Product`). -/
structure Product where
  id : String
  name : String
  price_min : Int
  price_max : Int
  brand : String
  category : String
  source : Source
  url : String := ""
  image : String := ""
  specs : Specs := {}
  warranty : String := ""
  availability : Option String := none
  rating : Option ℚ := none
  reviews_count : Option Nat := none
deriving DecidableEq, Repr

/-- Conversation role. -/
inductive Role
  | user
  | assistant
deriving DecidableEq, Repr

/-- One conversation turn (lib/types.ts `Message`).  The `id` and
`timestamp` fields are never consulted by the pipeline logic and are
omitted; a JS message without a `products` field is modelled by the empty
list, matching every `m.products && m.products.length > 0` test in the
route handler. -/
structure Message where
  role : Role
  content : String
  products : List Product := []
deriving DecidableEq, Repr

/-- `intent.productCount` of a parsed query. -/
inductive ProductCount
  | single
  | multiple
  | comparison
  | any
deriving DecidableEq, Repr

/-- `intent.action` of a parsed query. -/
inductive QueryAction
  | find
  | compare
  | recommend
  | info
deriving DecidableEq, Repr

/-- Parsed user intent (query-parser.ts `ParsedQuery.intent`). -/
structure Intent where
  productCount : ProductCount
  action : QueryAction
deriving DecidableEq, Repr

/-- Sidebar filter state (lib/types.ts `FilterState`); every field is
present, with the UI default `priceRange = [0, 200000]` and empty lists. -/
structure FilterState where
  priceRange : Int × Int
  categories : List String
  brands : List String
  source : List String
deriving DecidableEq, Repr

/-- Structured criteria extracted from the query (query-parser.ts
`ParsedQuery`, after the field-by-field validation step); absent JSON
fields are `none`.  The `specs` hints are never consulted downstream and
are omitted. -/
structure ParsedQuery where
  priceRange : Option (Int × Int) := none
  brands : Option (List String) := none
  categories : Option (List String) := none
  sources : Option (List String) := none
  intent : Option Intent := none
deriving DecidableEq, Repr

/-- query-parser.ts `mergeFilters`: merge sidebar filter state with parsed
query criteria.  Price and sources: query value replaces when present
(sources only when non-empty); brands and categories: JS-`Set` union of
sidebar and query lists when the query list is non-empty. -/
def mergeFilters (sidebarFilters : FilterState) (parsedFilters : ParsedQuery) : FilterState :=
  let merged := sidebarFilters
  let merged := match parsedFilters.priceRange with
    | some pr => { merged with priceRange := pr }
    | none => merged
  let merged := match parsedFilters.brands with
    | some bs =>
      if bs.length > 0 then { merged with brands := setDedup (sidebarFilters.brands ++ bs) }
      else merged
    | none => merged
  let merged := match parsedFilters.categories with
    | some cs =>
      if cs.length > 0 then { merged with categories := setDedup (sidebarFilters.categories ++ cs) }
      else merged
    | none => merged
  match parsedFilters.sources with
  | some ss => if ss.length > 0 then { merged with source := ss } else merged
  | none => merged

/-- Which embedding space produced the query vector. -/
inductive EmbeddingModel
  | openai
  | huggingface
deriving DecidableEq, Repr

/-- Optional metadata filters accepted by `searchProducts`
(vector-search.ts `SearchFilters`); a JS field that is `undefined` is
`none`, and the `length === 2` test on a present `priceRange` tuple is
always true in this model. -/
structure SearchFilters where
  priceRange : Option (Int × Int) := none
  categories : Option (List String) := none
  brands : Option (List String) := none
  sources : Option (List String) := none
deriving DecidableEq, Repr

/-- Metadata filter sent to the similarity index (vector-search.ts,
`pineconeFilter` construction). -/
structure PineconeFilter where
  price_min_gte : Option Int := none
  price_max_lte : Option Int := none
  source_in : Option (List String) := none
  brand_in : Option (List String) := none
deriving DecidableEq, Repr

/-- Index-level filter built from the search filters: the lower price
bound is omitted when zero, the upper bound when at the unrestricted
ceiling `200000`; source and brand lists become membership predicates. -/
def pineconeFilterOf (filters : SearchFilters) : PineconeFilter :=
  let pf : PineconeFilter := {}
  let pf := match filters.priceRange with
    | some (minPrice, maxPrice) =>
      let pf := if minPrice > 0 then { pf with price_min_gte := some minPrice } else pf
      if maxPrice < 200000 then { pf with price_max_lte := some maxPrice } else pf
    | none => pf
  let pf := match filters.sources with
    | some ss => if ss.length > 0 then { pf with source_in := some ss } else pf
    | none => pf
  match filters.brands with
  | some bs => if bs.length > 0 then { pf with brand_in := some bs } else pf
  | none => pf

/-- Over-fetch factor: request `2 × topK` candidates whenever a category
filter is present (category matching happens client-side), else `topK`. -/
def fetchCount (filters : SearchFilters) (topK : Nat) : Nat :=
  match filters.categories with
  | some cs => if cs.length > 0 then topK * 2 else topK
  | none => topK

/-- One raw match returned by the similarity index: optional similarity
score plus catalog metadata.  The source's field-by-field defaulting of
absent metadata (vector-search.ts, the `relevantMatches.map`) is treated
as part of the index boundary: `meta` carries the already-assembled
product, including the match id. -/
structure RawMatch where
  score : Option ℚ
  meta : Product
deriving DecidableEq, Repr

/-- Minimum relevance threshold for the HuggingFace embedding space. -/
def RELEVANCE_THRESHOLD : ℚ := 0.5

/-- Minimum relevance threshold for the OpenAI embedding space. -/
def OPENAI_RELEVANCE_THRESHOLD : ℚ := 0.4

/-- Model-specific minimum relevance threshold (the two embedding spaces
are not score-comparable). -/
def searchThreshold (embeddingModel : EmbeddingModel) : ℚ :=
  match embeddingModel with
  | .huggingface => RELEVANCE_THRESHOLD
  | .openai => OPENAI_RELEVANCE_THRESHOLD

/-- Matches at or above the space's relevance threshold, converted to
products (vector-search.ts `relevantMatches` plus the `Product` map). -/
def relevantProducts (rawMatches : List RawMatch) (embeddingModel : EmbeddingModel) : List Product :=
  (rawMatches.filter (fun m => decide (m.score.getD 0 ≥ searchThreshold embeddingModel))).map
    (fun m => m.meta)

/-- Client-side category post-filter: keep products whose category
contains (case-insensitively) one of the requested category strings. -/
def categoryFilter (filters : SearchFilters) (products : List Product) : List Product :=
  match filters.categories with
  | some cats =>
    if cats.length > 0 then
      products.filter (fun p => cats.any (fun cat => containsStr (jsToLower p.category) (jsToLower cat)))
    else products
  | none => products

/-- Strict client-side price-containment re-check: both `price_min` and
`price_max` must fall within the user's range. -/
def priceFilter (filters : SearchFilters) (products : List Product) : List Product :=
  match filters.priceRange with
  | some (minPrice, maxPrice) =>
    products.filter (fun p => decide (p.price_min ≥ minPrice) && decide (p.price_max ≤ maxPrice))
  | none => products

/-- Cheapest-first sort, applied exactly when a price range is present
with its upper bound below the unrestricted ceiling; JS `Array.sort` with
comparator `a.price_min - b.price_min` is a stable ascending sort. -/
def priceSort (filters : SearchFilters) (products : List Product) : List Product :=
  match filters.priceRange with
  | some (_, maxPrice) =>
    if maxPrice < 200000 then products.mergeSort (fun a b => decide (a.price_min ≤ b.price_min))
    else products
  | none => products

/-- vector-search.ts `searchProducts`.  The index is an oracle mapping
the metadata filter and fetch count to raw matches; the remainder is the
source's client-side post-processing pipeline: score thresholding,
category substring post-filter, strict price-containment re-check,
cheapest-first sort when an upper bound below the ceiling is active, and
truncation to `topK`. -/
def searchProducts (queryIndex : PineconeFilter → Nat → List RawMatch)
    (filters : SearchFilters) (topK : Nat) (embeddingModel : EmbeddingModel) : List Product :=
  let rawMatches := queryIndex (pineconeFilterOf filters) (fetchCount filters topK)
  (priceSort filters (priceFilter filters (categoryFilter filters
    (relevantProducts rawMatches embeddingModel)))).take topK

/-- Product-domain keywords whose presence makes a message non-casual
(route handler `isCasualMessage`). -/
def productKeywords : List String :=
  ["laptop", "desktop", "pc", "computer", "phone", "mobile", "tablet",
   "monitor", "keyboard", "mouse", "headphone", "camera", "printer",
   "show me", "find", "search", "looking for", "need", "want", "buy",
   "price", "taka", "৳", "budget", "under", "above", "between",
   "gaming", "office", "work", "student", "professional",
   "i5", "i7", "ryzen", "ram", "ssd", "hdd", "gb", "tb"]

/-- Standalone greetings recognised as casual. -/
def greetings : List String :=
  ["hi", "hello", "hey", "hola", "greetings", "good morning", "good afternoon", "good evening"]

/-- Standalone casual phrases. -/
def casualPhrases : List String :=
  ["how are you", "whats up", "what\x27s up", "how r u", "sup"]

/-- Route handler `isCasualMessage`: true exactly for standalone
greetings, casual phrases, thanks and goodbyes that contain no
product-domain keyword (keyword presence always wins and yields false). -/
def isCasualMessage (message : String) : Bool :=
  let lowerMessage := jsTrim (jsToLower message)
  if productKeywords.any (fun keyword => containsStr lowerMessage keyword) then false
  else if greetings.any (fun g =>
      lowerMessage == g || lowerMessage == g ++ "!" || lowerMessage == g ++ "?") then true
  else if casualPhrases.any (fun phrase =>
      lowerMessage == phrase || lowerMessage == phrase ++ "?") then true
  else if lowerMessage == "thanks" || lowerMessage == "thank you" ||
      lowerMessage == "thanks!" || lowerMessage == "thank you!" then true
  else if lowerMessage == "bye" || lowerMessage == "goodbye" ||
      lowerMessage == "bye!" || lowerMessage == "goodbye!" then true
  else false

/-- Product keywords consulted by the short-vague-query test of
`shouldUseConversationHistory`. -/
def historyProductKeywords : List String :=
  ["laptop", "desktop", "pc", "computer", "camera", "phone", "monitor",
   "keyboard", "mouse", "headphone", "speaker", "tablet", "processor",
   "ram", "ssd", "graphics", "display"]

/-- Deictic/comparative cue words of the short-vague-query test. -/
def contextTriggers : List String :=
  ["which", "what", "better", "best", "recommend", "choose",
   "first", "second", "third", "that", "this", "them", "it"]

/-- Explicit follow-up phrases. -/
def followUpPhrases : List String :=
  ["which is better", "which will be better", "which one",
   "tell me more", "more details", "more about",
   "compare them", "compare these", "difference between",
   "your recommendation", "what do you think",
   "the first one", "the second one", "the third one"]

/-- Route handler `shouldUseConversationHistory`: answer from prior items
when the history is non-empty and the message is either short (at most 5
words, splitting the trimmed lower-cased message on whitespace runs) with
a context trigger and no product keyword, or contains an explicit
follow-up phrase. -/
def shouldUseConversationHistory (message : String) (conversationHistory : List Message) : Bool :=
  if conversationHistory.length == 0 then false
  else
    let lowerMessage := jsTrim (jsToLower message)
    let words := jsWords lowerMessage
    let shortVague :=
      if words.length ≤ 5 then
        let hasProductKeyword := historyProductKeywords.any (fun k => containsStr lowerMessage k)
        let hasContextTrigger := contextTriggers.any (fun t => containsStr lowerMessage t)
        hasContextTrigger && !hasProductKeyword
      else false
    if shortVague then true
    else if followUpPhrases.any (fun phrase => containsStr lowerMessage phrase) then true
    else false

/-- Products attached to the most recent assistant turn that carried any
(route handler: reversed `find` plus `?.products || []`). -/
def lastAssistantProducts (conversationHistory : List Message) : List Product :=
  match conversationHistory.reverse.find? (fun m =>
      m.role == Role.assistant && decide (m.products.length > 0)) with
  | some m => m.products
  | none => []

/-- Routing outcome of the handler's first two tests. -/
inductive RouteKind
  | casual
  | contextual (priorItems : List Product)
  | fresh
deriving DecidableEq, Repr

/-- The handler's routing decision: casual short-circuit, follow-up with
the prior items when `shouldUseConversationHistory` holds and some prior
assistant turn carried products, otherwise the fresh search path (also
taken when the follow-up test fires but no prior items exist). -/
def route (message : String) (conversationHistory : List Message) : RouteKind :=
  if isCasualMessage message then .casual
  else
    let previousProducts := lastAssistantProducts conversationHistory
    if shouldUseConversationHistory message conversationHistory &&
        decide (previousProducts.length > 0) then
      .contextual previousProducts
    else .fresh

/-- The quoted key the selection regexes look for. -/
def selectionKey : List Char := "\"selected_product_ids\"".data

/-- Start and exclusive end of the first match of the bare
selection-object regex (an opening brace, lazily any characters, the
quoted key, lazily any characters, a closing brace) in `s`.  The JS
engine returns the leftmost-starting match with each lazy group taking
its first viable choice; if the first opening brace has no key occurrence
after it, or no closing brace after that first key occurrence, then no
later starting position can match either, so examining only the first
opening brace is exact. -/
def bareMatchRange (s : List Char) : Option (Nat × Nat) :=
  match firstIdxOf ['\x7b'] s with
  | none => none
  | some i =>
    match firstIdxOf selectionKey (s.drop (i + 1)) with
    | none => none
    | some k =>
      let keyEnd := i + 1 + k + selectionKey.length
      match firstIdxOf ['\x7d'] (s.drop keyEnd) with
      | none => none
      | some j => some (i, keyEnd + j + 1)

/-- Number of leading whitespace characters. -/
def wsCount : List Char → Nat
  | [] => 0
  | c :: rest => if c.isWhitespace then wsCount rest + 1 else 0

/-- Attempt the fenced-selection regex (three backticks, `jso`, optional
`n`, whitespace, the selection object, whitespace, three backticks) at
position `i`; returns (capture start, capture end, match end).  Lazy
sub-groups take their first viable choice, exact for outputs following
the selection protocol (the engine's backtracking into later key or
closing-brace choices is not modelled). -/
def tryFencedAt (s : List Char) (i : Nat) : Option (Nat × Nat × Nat) :=
  if "```jso".data.isPrefixOf (s.drop i) then
    let afterTag := if (s.drop (i + 6)).head? == some 'n' then i + 7 else i + 6
    let capStart := afterTag + wsCount (s.drop afterTag)
    if (s.drop capStart).head? == some '\x7b' then
      match firstIdxOf selectionKey (s.drop (capStart + 1)) with
      | none => none
      | some k =>
        let keyEnd := capStart + 1 + k + selectionKey.length
        match firstIdxOf ['\x7d'] (s.drop keyEnd) with
        | none => none
        | some j =>
          let capEnd := keyEnd + j + 1
          let tailStart := capEnd + wsCount (s.drop capEnd)
          if "```".data.isPrefixOf (s.drop tailStart) then some (capStart, capEnd, tailStart + 3)
          else none
    else none
  else none

/-- Scan for the first position at which the fenced regex matches;
returns (match start, capture start, capture end, match end). -/
def fencedFind (s : List Char) (i fuel : Nat) : Option (Nat × Nat × Nat × Nat) :=
  match fuel with
  | 0 => none
  | fuel + 1 =>
    match tryFencedAt s i with
    | some (capStart, capEnd, matchEnd) => some (i, capStart, capEnd, matchEnd)
    | none => fencedFind s (i + 1) fuel

/-- First match of the fenced-selection regex in `s`. -/
def fencedMatch (s : List Char) : Option (Nat × Nat × Nat × Nat) :=
  fencedFind s 0 (s.length + 1)

/-- Text matched by the selection-object extraction: the bare regex
first, then — as in the source — the capture of the fenced variant, a
branch that is dead in practice since any fenced match contains a bare
match. -/
def selectionMatch (s : String) : Option String :=
  match bareMatchRange s.data with
  | some (i, e) => some (String.mk ((s.data.drop i).take (e - i)))
  | none =>
    match fencedMatch s.data with
    | some (_, capStart, capEnd, _) =>
      some (String.mk ((s.data.drop capStart).take (capEnd - capStart)))
    | none => none

/-- Drop leading whitespace. -/
def skipWs (s : List Char) : List Char := s.dropWhile Char.isWhitespace

/-- Split off a maximal leading run of decimal digits. -/
def takeDigits : List Char → List Char × List Char
  | [] => ([], [])
  | c :: rest =>
    if c.isDigit then
      let (ds, r) := takeDigits rest
      (c :: ds, r)
    else ([], c :: rest)

/-- Parse a decimal natural-number prefix. -/
def parseNatPrefix (s : List Char) : Option (Nat × List Char) :=
  let (ds, r) := takeDigits s
  if ds.isEmpty then none
  else some (ds.foldl (fun acc c => acc * 10 + (c.toNat - 48)) 0, r)

/-- Parse the remaining `, n` items of a JSON number array; returns the
accumulated numbers and the rest of the input with leading whitespace
skipped (so the caller sees the closing bracket directly). -/
def parseMoreNats (fuel : Nat) (s : List Char) (acc : List Nat) : Option (List Nat × List Char) :=
  match fuel with
  | 0 => none
  | fuel + 1 =>
    match skipWs s with
    | ',' :: rest =>
      match parseNatPrefix (skipWs rest) with
      | some (n, r) => parseMoreNats fuel r (acc ++ [n])
      | none => none
    | s1 => some (acc, s1)

/-- Models `JSON.parse` on the regex-matched text followed by reading its
`selected_product_ids` field, restricted to the selection protocol's
shape: a single-member object whose value is an array of non-negative
integer numbers, with arbitrary whitespace.  Any other JSON shape is
treated as a parse failure. -/
def parseSelectionObject (m : String) : Option (List Nat) :=
  match skipWs m.data with
  | '\x7b' :: r1 =>
    let r2 := skipWs r1
    if selectionKey.isPrefixOf r2 then
      match skipWs (r2.drop selectionKey.length) with
      | ':' :: r3 =>
        match skipWs r3 with
        | '[' :: r4 =>
          match skipWs r4 with
          | ']' :: r6 =>
            match skipWs r6 with
            | '\x7d' :: r7 => if (skipWs r7).isEmpty then some [] else none
            | _ => none
          | r5 =>
            match parseNatPrefix r5 with
            | none => none
            | some (n1, r6) =>
              match parseMoreNats (m.length + 1) r6 [n1] with
              | none => none
              | some (ns, r7) =>
                match r7 with
                | ']' :: r8 =>
                  match skipWs r8 with
                  | '\x7d' :: r9 => if (skipWs r9).isEmpty then some ns else none
                  | _ => none
                | _ => none
        | _ => none
      | _ => none
    else none
  | _ => none

/-- Ids declared by the generator output: regex match, then JSON parse. -/
def selectedIdsOf (content : String) : Option (List Nat) :=
  (selectionMatch content).bind parseSelectionObject

/-- The two `.replace` calls plus `.trim` applied to the raw output when
a selection object was parsed: delete the first bare-regex match, then
the first fenced-regex match from what remains, then trim. -/
def stripSelection (content : String) : String :=
  let s := content.data
  let s := match bareMatchRange s with
    | some (i, e) => s.take i ++ s.drop e
    | none => s
  let s := match fencedMatch s with
    | some (i, _, _, e) => s.take i ++ s.drop e
    | none => s
  jsTrim (String.mk s)

/-- Selection extraction as performed in the route handler: on a regex
match whose text JSON-parses, return the declared ids together with the
stripped narrative; otherwise (no match, or `JSON.parse` throwing before
the cleaning assignments run) the ids default to the empty list and the
narrative is returned unchanged. -/
def selectedIdsAndContent (content : String) : List Nat × String :=
  match selectedIdsOf content with
  | some ids => (ids, stripSelection content)
  | none => ([], content)

/-- JS `ids.map(id => products[id - 1]).filter(Boolean)`: map 1-based ids
to products; ids outside 1..length (including 0, whose JS lookup is
`products[-1]`) produce `undefined` and are silently dropped. -/
def selectByIds (products : List Product) (ids : List Nat) : List Product :=
  ids.filterMap (fun id => if id == 0 then none else products[id - 1]?)

/-- Intent-keyed fallback slice size (route handler step 6 fallback):
single → 1, comparison → 3, multiple → 5, default 5. -/
def sliceCount (intent : Option Intent) : Nat :=
  if intent.map (fun i => i.productCount) == some ProductCount.single then 1
  else if intent.map (fun i => i.productCount) == some ProductCount.comparison then 3
  else if intent.map (fun i => i.productCount) == some ProductCount.multiple then 5
  else 5

/-- Steps 5-6 of the fresh path: parse the generator output's selection
and choose the display products — the LLM-selected ids when a non-empty
list was parsed, else the intent-keyed slice — plus the narrative to
display. -/
def resolveDisplayFresh (content : String) (products : List Product)
    (intent : Option Intent) : List Product × String :=
  let (selectedProductIds, cleanedContent) := selectedIdsAndContent content
  let displayProducts :=
    if selectedProductIds.length > 0 then selectByIds products selectedProductIds
    else products.take (sliceCount intent)
  (displayProducts, cleanedContent)

/-- Follow-up path resolution: the LLM-selected prior items when a
non-empty list was parsed, else all prior items. -/
def resolveDisplayContextual (content : String) (previousProducts : List Product) :
    List Product × String :=
  let (selectedProductIds, cleanedContent) := selectedIdsAndContent content
  let displayProducts :=
    if selectedProductIds.length > 0 then selectByIds previousProducts selectedProductIds
    else previousProducts
  (displayProducts, cleanedContent)

/-- Insert a comma after every third character, operating on a reversed
digit string. -/
def commaGroupRev : List Char → List Char
  | a :: b :: c :: d :: rest => a :: b :: c :: ',' :: commaGroupRev (d :: rest)
  | ds => ds

/-- JS `Number.toLocaleString()` on an integer: decimal digits grouped in
threes by commas (en-US default grouping). -/
def locInt (n : Int) : String :=
  (if n < 0 then "-" else "") ++ String.mk ((commaGroupRev (toString n.natAbs).data.reverse).reverse)

/-- Whether the query implies a complete system (route handler budget
guard); `userQuery` is the lower-cased message. -/
def isLookingForCompleteSystem (userQuery : String) : Bool :=
  containsStr userQuery "laptop" || containsStr userQuery "desktop" ||
  containsStr userQuery "pc" || containsStr userQuery "computer"

/-- Whether the query mentions accessories or parts. -/
def isLookingForAccessories (userQuery : String) : Bool :=
  containsStr userQuery "keyboard" || containsStr userQuery "mouse" ||
  containsStr userQuery "cable" || containsStr userQuery "accessory" ||
  containsStr userQuery "part"

/-- Product class named in the infeasible-budget response. -/
def budgetProductType (userQuery : String) : String :=
  if containsStr userQuery "desktop" || containsStr userQuery "pc" then "desktop" else "laptop"

/-- Realism floor quoted for the product class. -/
def budgetRealisticFloor (productType : String) : Int :=
  if productType == "desktop" then 35000 else 30000

/-- Infeasible-budget guidance text (route handler budget guard). -/
def budgetSuggestionMessage (productType : String) (minRealisticPrice maxPrice : Int) : String :=
  "Unfortunately, complete " ++ productType ++ "s aren\x27t available under " ++
    locInt maxPrice ++ "৳. " ++
  "\n\nAt this price point, only accessories and parts (keyboards, displays, mice) are available. " ++
  "\n\nWould you like to see:\n" ++
  "• Budget " ++ productType ++ "s starting from " ++ locInt minRealisticPrice ++ "৳?\n" ++
  "• Used/refurbished " ++ productType ++ "s (may have options in higher ranges)?\n" ++
  "• Accessories and parts in your " ++ locInt maxPrice ++ "৳ budget?"

/-- Canned casual responses. -/
def casualResponses : List String :=
  ["Hello! I\x27m here to help you find the best tech products from StarTech and Daraz. What are you looking for today?",
   "Hi there! Looking for laptops, desktops, or any specific tech products? I can help you compare prices and specs.",
   "Hey! Ready to help you find great deals on tech products. What would you like to search for?"]

/-- Canned response for thanks. -/
def thanksResponse : String :=
  "You\x27re welcome! Let me know if you need help finding any other products."

/-- JS `(maxPrice * 1.2).toLocaleString()`: exact when the product is an
integer, else rendered with the one decimal digit that multiplying an
integer by 1.2 yields. -/
def locTimes12 (maxPrice : Int) : String :=
  let v := maxPrice * 12
  if v % 10 == 0 then locInt (v / 10)
  else locInt (v / 10) ++ "." ++ toString (v % 10).natAbs

/-- Zero-results guidance text (route handler no-results branch). -/
def noResultsMessage (minPrice maxPrice : Int) : String :=
  let base := "I couldn\x27t find any products matching your exact criteria. "
  if maxPrice < 200000 ∧ maxPrice > 0 then
    let base := base ++ "\n\nNo products found in the " ++ locInt minPrice ++ "৳ to " ++
      locInt maxPrice ++ "৳ range. "
    if maxPrice < 10000 then
      base ++ "\n\nAt this price point, only accessories and parts are available. Would you like to see:\n" ++
      "• Computer accessories (keyboards, mice, cables)?\n" ++
      "• Budget options starting from " ++ locInt (maxPrice * 3) ++ "৳?\n" ++
      "• Used/refurbished products in higher ranges?"
    else if maxPrice < 30000 then
      base ++ "\n\nComplete laptops typically start from 30,000৳. Would you like to see:\n" ++
      "• Budget laptops starting from 30,000-35,000৳?\n" ++
      "• Tablets or Chromebooks in your range?\n" ++
      "• Used/refurbished options?"
    else
      base ++ "\n\nWould you like me to:\n" ++
      "• Show products in the " ++ locTimes12 maxPrice ++ "৳ range (20% above budget)?\n" ++
      "• Search for alternative brands or categories?\n" ++
      "• Look for used/refurbished options in your range?"
  else if minPrice > 0 then
    base ++ "\n\nYour minimum price is " ++ locInt minPrice ++ "৳. " ++
    "Would you like me to show lower-priced options as well?"
  else
    base ++ "\n\nTry:\n" ++
    "• Adjusting your filters (price range, brand, category)\n" ++
    "• Rephrasing your question with different keywords\n" ++
    "• Asking about a different product category"

/-- Per-request results of the external collaborators: the criteria
interpreter (an LLM call), the similarity index, the text generator, and
the `Math.random` pick among the canned casual responses. -/
structure Externals where
  parseQueryResult : ParsedQuery
  queryIndex : PineconeFilter → Nat → List RawMatch
  llmContent : String
  llmProvider : String
  llmModel : String
  casualPick : Fin 3

/-- Inbound request body consumed by the route handler.  The `provider`
preference only selects which generator backend the oracle stands for
and is folded into the oracle. -/
structure ChatBody where
  message : String
  filters : FilterState
  conversationHistory : List Message := []
  embeddingModel : EmbeddingModel := .openai

/-- Response of the route handler, together with instrumentation
counting the embedding and index calls the handler issued (the spec's
retrieval-call counter).  `Date.now` ids and timestamps are omitted. -/
structure ChatResult where
  content : String
  products : List Product
  provider : String
  model : String
  productsFound : Nat
  embedCalls : Nat
  searchCalls : Nat
deriving Repr

/-- The chat route handler `POST` as a function of the request body and
the per-request oracles, faithful to the handler's control flow: casual
short-circuit; follow-up path reusing prior items; otherwise query
parsing, filter merging, the budget-feasibility guard, embedding plus
retrieval, the no-results branch, and selection resolution.  The merged
filter's `priceRange` is always present here (typed `FilterState`), so
the handler's `|| [0, 200000]` default never fires. -/
def POST (body : ChatBody) (ext : Externals) : ChatResult :=
  match route body.message body.conversationHistory with
  | .casual =>
    let responseContent :=
      if containsStr (jsToLower body.message) "thank" then thanksResponse
      else casualResponses.getD ext.casualPick.val ""
    { content := responseContent, products := [], provider := "system",
      model := "casual-response", productsFound := 0, embedCalls := 0, searchCalls := 0 }
  | .contextual previousProducts =>
    let (displayProducts, cleanedContent) := resolveDisplayContextual ext.llmContent previousProducts
    { content := cleanedContent, products := displayProducts,
      provider := ext.llmProvider, model := ext.llmModel,
      productsFound := displayProducts.length, embedCalls := 0, searchCalls := 0 }
  | .fresh =>
    let parsedQuery := ext.parseQueryResult
    let mergedFilters := mergeFilters body.filters parsedQuery
    let minPrice := mergedFilters.priceRange.1
    let maxPrice := mergedFilters.priceRange.2
    let userQuery := jsToLower body.message
    if isLookingForCompleteSystem userQuery && !isLookingForAccessories userQuery &&
        decide (maxPrice > 0) && decide (maxPrice < 25000) then
      let productType := budgetProductType userQuery
      let minRealisticPrice := budgetRealisticFloor productType
      { content := budgetSuggestionMessage productType minRealisticPrice maxPrice,
        products := [], provider := "system", model := "unrealistic-budget",
        productsFound := 0, embedCalls := 0, searchCalls := 0 }
    else
      let searchFilters : SearchFilters :=
        { priceRange := some mergedFilters.priceRange,
          categories := some mergedFilters.categories,
          brands := some mergedFilters.brands,
          sources := some mergedFilters.source }
      let products := searchProducts ext.queryIndex searchFilters 8 body.embeddingModel
      if products.length == 0 then
        { content := noResultsMessage minPrice maxPrice,
          products := [], provider := "system", model := "no-results",
          productsFound := 0, embedCalls := 1, searchCalls := 1 }
      else
        let (displayProducts, cleanedContent) :=
          resolveDisplayFresh ext.llmContent products parsedQuery.intent
        { content := cleanedContent, products := displayProducts,
          provider := ext.llmProvider, model := ext.llmModel,
          productsFound := products.length, embedCalls := 1, searchCalls := 1 }

/-! Concrete fixtures used by witnesses and counterexamples. -/

/-- Sample catalog item 1. -/
def p1 : Product :=
  { id := "p1", name := "Acer Aspire 3", price_min := 25000, price_max := 30000,
    brand := "Acer", category := "laptop", source := .starTech }

/-- Sample catalog item 2. -/
def p2 : Product :=
  { p1 with id := "p2", name := "HP 15s", price_min := 32000, price_max := 36000, brand := "HP" }

/-- Sample catalog item 3. -/
def p3 : Product :=
  { p1 with id := "p3", name := "Lenovo V15", price_min := 28000, price_max := 29000, brand := "Lenovo" }

/-- Sample catalog item 4. -/
def p4 : Product :=
  { p1 with id := "p4", name := "Asus Vivobook", price_min := 40000, price_max := 42000, brand := "Asus" }

/-- Sample catalog item 5. -/
def p5 : Product :=
  { p1 with id := "p5", name := "Dell Inspiron", price_min := 38000, price_max := 39000, brand := "Dell" }

/-- Five-candidate fixture list. -/
def sampleFive : List Product := [p1, p2, p3, p4, p5]

/-- Candidate whose price interval straddles the requested ceiling. -/
def straddleProduct : Product :=
  { id := "s1", name := "Straddle", price_min := 20000, price_max := 45000,
    brand := "HP", category := "laptop", source := .daraz }

/-- Index double returning one high-scoring straddling candidate. -/
def straddleIndex : PineconeFilter → Nat → List RawMatch :=
  fun _ _ => [{ score := some 0.9, meta := straddleProduct }]

/-- Index double returning two in-range candidates in non-price order. -/
def twoItemIndex : PineconeFilter → Nat → List RawMatch :=
  fun _ _ => [{ score := some 0.9, meta := p4 }, { score := some 0.8, meta := p1 }]

/-- History whose most recent assistant turn carried two items. -/
def historyTwoItems : List Message :=
  [{ role := .user, content := "show me laptops" },
   { role := .assistant, content := "Here are two options.", products := [p1, p2] }]

/-- The canonical selection object referencing positions 1 and 3. -/
def selObj13 : String := "\x7b\"selected_product_ids\": [1, 3]\x7d"

/-- A selection object declaring an empty reference list. -/
def selObjEmpty : String := "\x7b\"selected_product_ids\": []\x7d"

/-- Raw output whose narrative contains a stray opening brace before the
trailing selection object. -/
def c6BadContent : String := "Note \x7bA\x7d. " ++ selObj13

/-- Raw output carrying the selection object inside a fenced code block. -/
def c6FencedContent : String := "Look:\n```json\n" ++ selObj13 ++ "\n```"

/-- Raw output with no parsable selection object. -/
def c7Content : String := "Here are three options to compare."

/-- Raw output whose selection object references position 99 of a
5-candidate list. -/
def c8Content : String := "These two. \x7b\"selected_product_ids\": [1, 99]\x7d"

/-- Raw output ending in the empty-selection object. -/
def c9Content : String := "Nothing specific selected. " ++ selObjEmpty

/-- UI-default sidebar filter state. -/
def defaultFilters : FilterState :=
  { priceRange := (0, 200000), categories := [], brands := [], source := [] }

/-- Request fixture: a fresh "gaming laptop" query with default filters. -/
def gamingLaptopBody : ChatBody :=
  { message := "gaming laptop", filters := defaultFilters }

/-- Oracle fixture whose criteria interpreter returned the price interval
[0, 15000]; the index double counts for nothing since the guard must fire
first. -/
def budgetExt : Externals :=
  { parseQueryResult := { priceRange := some (0, 15000) },
    queryIndex := fun _ _ => [],
    llmContent := "", llmProvider := "gemini", llmModel := "gemini-2.0-flash",
    casualPick := 0 }

/-- Request fixture: contextual follow-up over `historyTwoItems`. -/
def followUpBody : ChatBody :=
  { message := "which one is better", filters := defaultFilters,
    conversationHistory := historyTwoItems }

/-- Oracle fixture whose generator output carries no selection object. -/
def plainLlmExt : Externals :=
  { parseQueryResult := {},
    queryIndex := fun _ _ => [],
    llmContent := "The first one is better value.",
    llmProvider := "gemini", llmModel := "gemini-2.0-flash",
    casualPick := 0 }

/-! Helper lemmas. -/

/-- Membership in the strict price filter forces interval containment. -/
theorem mem_priceFilter {filters : SearchFilters} {lo hi : Int}
    (hpr : filters.priceRange = some (lo, hi)) {products : List Product} {p : Product}
    (hp : p ∈ priceFilter filters products) : lo ≤ p.price_min ∧ p.price_max ≤ hi := by
  simp only [priceFilter, hpr, List.mem_filter, Bool.and_eq_true, decide_eq_true_eq,
    ge_iff_le] at hp
  exact ⟨hp.2.1, hp.2.2⟩

/-- The conditional sort does not change membership. -/
theorem mem_of_mem_priceSort {filters : SearchFilters} {products : List Product} {p : Product}
    (hp : p ∈ priceSort filters products) : p ∈ products := by
  rcases h : filters.priceRange with _ | ⟨lo, hi⟩
  · simpa only [priceSort, h] using hp
  · simp only [priceSort, h] at hp
    by_cases hlt : hi < 200000
    · rw [if_pos hlt] at hp
      exact List.mem_mergeSort.mp hp
    · rwa [if_neg hlt] at hp

/-- The conditional sort is the identity when no upper bound below the
ceiling is active. -/
theorem priceSort_eq_of_unbounded {filters : SearchFilters}
    (h : ∀ lo hi, filters.priceRange = some (lo, hi) → 200000 ≤ hi)
    (products : List Product) : priceSort filters products = products := by
  rcases hpr : filters.priceRange with _ | ⟨lo, hi⟩
  · simp only [priceSort, hpr]
  · simp only [priceSort, hpr]
    rw [if_neg (not_lt.mpr (h lo hi hpr))]

/-- The category post-filter yields an order-preserving sublist. -/
theorem categoryFilter_sublist (filters : SearchFilters) (products : List Product) :
    (categoryFilter filters products).Sublist products := by
  rcases h : filters.categories with _ | cats
  · simp only [categoryFilter, h]
    exact List.Sublist.refl _
  · simp only [categoryFilter, h]
    by_cases hc : cats.length > 0
    · rw [if_pos hc]
      exact List.filter_sublist _
    · rw [if_neg hc]

/-- The price filter yields an order-preserving sublist. -/
theorem priceFilter_sublist (filters : SearchFilters) (products : List Product) :
    (priceFilter filters products).Sublist products := by
  rcases h : filters.priceRange with _ | ⟨lo, hi⟩
  · simp only [priceFilter, h]
    exact List.Sublist.refl _
  · simp only [priceFilter, h]
    exact List.filter_sublist _

/-- Threshold filtering preserves the index order of the matches. -/
theorem relevantProducts_sublist (rawMatches : List RawMatch) (em : EmbeddingModel) :
    (relevantProducts rawMatches em).Sublist (rawMatches.map (fun m => m.meta)) := by
  unfold relevantProducts
  exact List.Sublist.map _ (List.filter_sublist _)

/-- `setDedup` does not change membership. -/
theorem mem_setDedup (l : List String) (x : String) : x ∈ setDedup l ↔ x ∈ l := by
  induction l using setDedup.induct with
  | case1 => simp [setDedup]
  | case2 y ys ih =>
    by_cases hxy : x = y
    · simp [setDedup, hxy]
    · simp [setDedup, hxy, ih, List.mem_filter, bne_iff_ne]

/-- `setDedup` output is duplicate-free. -/
theorem setDedup_nodup (l : List String) : (setDedup l).Nodup := by
  induction l using setDedup.induct with
  | case1 => simp [setDedup]
  | case2 y ys ih =>
    rw [setDedup]
    refine List.nodup_cons.mpr ⟨?_, ih⟩
    intro hmem
    rw [mem_setDedup] at hmem
    simp [List.mem_filter, bne_iff_ne] at hmem

/-- Price component of the merged filter. -/
theorem mergeFilters_priceRange (s : FilterState) (p : ParsedQuery) :
    (mergeFilters s p).priceRange =
      match p.priceRange with
      | some pr => pr
      | none => s.priceRange := by
  rcases p with ⟨ppr, pbs, pcs, pss, pint⟩
  rcases ppr with _ | pr <;> rcases pbs with _ | bs <;> rcases pcs with _ | cs <;>
    rcases pss with _ | ss <;>
    simp only [mergeFilters] <;> (repeat' split) <;> rfl

/-- Brand component of the merged filter. -/
theorem mergeFilters_brands (s : FilterState) (p : ParsedQuery) :
    (mergeFilters s p).brands =
      match p.brands with
      | some bs => if bs.length > 0 then setDedup (s.brands ++ bs) else s.brands
      | none => s.brands := by
  rcases p with ⟨ppr, pbs, pcs, pss, pint⟩
  rcases ppr with _ | pr <;> rcases pbs with _ | bs <;> rcases pcs with _ | cs <;>
    rcases pss with _ | ss <;>
    simp only [mergeFilters] <;> (repeat' split) <;> rfl

/-- Category component of the merged filter. -/
theorem mergeFilters_categories (s : FilterState) (p : ParsedQuery) :
    (mergeFilters s p).categories =
      match p.categories with
      | some cs => if cs.length > 0 then setDedup (s.categories ++ cs) else s.categories
      | none => s.categories := by
  rcases p with ⟨ppr, pbs, pcs, pss, pint⟩
  rcases ppr with _ | pr <;> rcases pbs with _ | bs <;> rcases pcs with _ | cs <;>
    rcases pss with _ | ss <;>
    simp only [mergeFilters] <;> (repeat' split) <;> rfl

/-- Source component of the merged filter. -/
theorem mergeFilters_source (s : FilterState) (p : ParsedQuery) :
    (mergeFilters s p).source =
      match p.sources with
      | some ss => if ss.length > 0 then ss else s.source
      | none => s.source := by
  rcases p with ⟨ppr, pbs, pcs, pss, pint⟩
  rcases ppr with _ | pr <;> rcases pbs with _ | bs <;> rcases pcs with _ | cs <;>
    rcases pss with _ | ss <;>
    simp only [mergeFilters] <;> (repeat' split) <;> rfl

/-! Claim theorems. -/

/-- C1: for every `searchProducts` call with an active price filter
`[lo, hi]`, every returned item satisfies `lo ≤ price_min` and
`price_max ≤ hi`; in particular a candidate with interval
`[20000, 45000]` is excluded when `[0, 40000]` is requested. -/
theorem retrieval_price_containment :
    (∀ (queryIndex : PineconeFilter → Nat → List RawMatch) (filters : SearchFilters)
      (topK : Nat) (embeddingModel : EmbeddingModel) (lo hi : Int),
      filters.priceRange = some (lo, hi) →
      ∀ p ∈ searchProducts queryIndex filters topK embeddingModel,
        lo ≤ p.price_min ∧ p.price_max ≤ hi) ∧
    searchProducts straddleIndex { priceRange := some (0, 40000) } 10 .openai = [] := by
  constructor
  · intro qi f k em lo hi hpr p hp
    simp only [searchProducts] at hp
    exact mem_priceFilter hpr (mem_of_mem_priceSort (List.mem_of_mem_take hp))
  · have hpos : decide ((some (0.9 : ℚ)).getD 0 ≥ searchThreshold .openai) = true :=
      decide_eq_true (by norm_num [searchThreshold, OPENAI_RELEVANCE_THRESHOLD])
    simp only [searchProducts, straddleIndex, relevantProducts, List.filter_cons,
      List.filter_nil, hpos]
    simp [categoryFilter, priceFilter, priceSort, straddleProduct, List.mergeSort_nil]

/-- C1 witness: the containment theorem applied to a concrete index
double whose single in-range candidate is returned. -/
theorem retrieval_price_containment_witness :
    (0 : Int) ≤ p1.price_min ∧ p1.price_max ≤ (40000 : Int) := by
  have heval : searchProducts (fun _ _ => [{ score := some 0.9, meta := p1 }])
      { priceRange := some (0, 40000) } 10 .openai = [p1] := by
    have hpos : decide ((some (0.9 : ℚ)).getD 0 ≥ searchThreshold .openai) = true :=
      decide_eq_true (by norm_num [searchThreshold, OPENAI_RELEVANCE_THRESHOLD])
    simp only [searchProducts, relevantProducts, List.filter_cons, List.filter_nil, hpos]
    simp [categoryFilter, priceFilter, priceSort, p1, List.mergeSort_singleton]
  exact retrieval_price_containment.1 (fun _ _ => [{ score := some 0.9, meta := p1 }])
    { priceRange := some (0, 40000) } 10 .openai 0 40000 rfl p1
    (by rw [heval]; exact List.mem_singleton.mpr rfl)

/-- C3: with an active upper price bound strictly below the unrestricted
ceiling 200000 the returned list is sorted ascending by `price_min`;
without such a bound the result is an order-preserving sublist of the
fetched matches (relevance order preserved); and the result never has
more than `topK` elements. -/
theorem retrieval_order_spec :
    (∀ (queryIndex : PineconeFilter → Nat → List RawMatch) (filters : SearchFilters)
      (topK : Nat) (embeddingModel : EmbeddingModel) (lo hi : Int),
      filters.priceRange = some (lo, hi) → hi < 200000 →
      (searchProducts queryIndex filters topK embeddingModel).Pairwise
        (fun a b => a.price_min ≤ b.price_min)) ∧
    (∀ (queryIndex : PineconeFilter → Nat → List RawMatch) (filters : SearchFilters)
      (topK : Nat) (embeddingModel : EmbeddingModel),
      (∀ lo hi, filters.priceRange = some (lo, hi) → 200000 ≤ hi) →
      (searchProducts queryIndex filters topK embeddingModel).Sublist
        ((queryIndex (pineconeFilterOf filters) (fetchCount filters topK)).map
          (fun m => m.meta))) ∧
    (∀ (queryIndex : PineconeFilter → Nat → List RawMatch) (filters : SearchFilters)
      (topK : Nat) (embeddingModel : EmbeddingModel),
      (searchProducts queryIndex filters topK embeddingModel).length ≤ topK) := by
  refine ⟨?_, ?_, ?_⟩
  · intro qi f k em lo hi hpr hlt
    simp only [searchProducts]
    have hsorted : (priceSort f (priceFilter f (categoryFilter f
        (relevantProducts (qi (pineconeFilterOf f) (fetchCount f k)) em)))).Pairwise
        (fun a b => a.price_min ≤ b.price_min) := by
      simp only [priceSort, hpr]
      rw [if_pos hlt]
      have htrans : ∀ a b c : Product, (decide (a.price_min ≤ b.price_min)) = true →
          (decide (b.price_min ≤ c.price_min)) = true →
          (decide (a.price_min ≤ c.price_min)) = true := by
        intro a b c hab hbc
        simp only [decide_eq_true_eq] at *
        exact le_trans hab hbc
      have htotal : ∀ a b : Product, ((decide (a.price_min ≤ b.price_min)) ||
          (decide (b.price_min ≤ a.price_min))) = true := by
        intro a b
        simp only [Bool.or_eq_true, decide_eq_true_eq]
        exact Int.le_total a.price_min b.price_min
      have h := @List.sorted_mergeSort Product
        (fun a b => decide (a.price_min ≤ b.price_min)) htrans htotal
        (priceFilter f (categoryFilter f
          (relevantProducts (qi (pineconeFilterOf f) (fetchCount f k)) em)))
      exact h.imp (fun hab => by simpa using hab)
    exact List.Pairwise.sublist (List.take_sublist _ _) hsorted
  · intro qi f k em hub
    simp only [searchProducts]
    rw [priceSort_eq_of_unbounded hub]
    exact ((List.take_sublist _ _).trans (priceFilter_sublist _ _)).trans
      ((categoryFilter_sublist _ _).trans (relevantProducts_sublist _ _))
  · intro qi f k em
    simp only [searchProducts]
    exact List.length_take_le _ _

/-- C3 witness: sortedness applied to a concrete two-candidate index
double with the bound 50000 active. -/
theorem retrieval_order_spec_witness :
    (searchProducts twoItemIndex { priceRange := some (0, 50000) } 10 .openai).Pairwise
      (fun a b => a.price_min ≤ b.price_min) :=
  retrieval_order_spec.1 twoItemIndex { priceRange := some (0, 50000) } 10 .openai 0 50000
    rfl (by decide)

/-- C2: the merged filter takes the criteria's price interval exactly
when supplied and the filter state's when omitted; brands and categories
become the duplicate-free union of both inputs when the criteria supply
a non-empty list (pass-through otherwise); and a supplied non-empty
source list replaces the filter's sources. -/
theorem merge_precedence_spec :
    ∀ (sidebar : FilterState) (parsed : ParsedQuery),
      (∀ pr, parsed.priceRange = some pr → (mergeFilters sidebar parsed).priceRange = pr) ∧
      (parsed.priceRange = none →
        (mergeFilters sidebar parsed).priceRange = sidebar.priceRange) ∧
      (∀ bs, parsed.brands = some bs → bs ≠ [] →
        (mergeFilters sidebar parsed).brands = setDedup (sidebar.brands ++ bs) ∧
        (mergeFilters sidebar parsed).brands.Nodup ∧
        ∀ x, x ∈ (mergeFilters sidebar parsed).brands ↔ (x ∈ sidebar.brands ∨ x ∈ bs)) ∧
      (parsed.brands = none → (mergeFilters sidebar parsed).brands = sidebar.brands) ∧
      (∀ cs, parsed.categories = some cs → cs ≠ [] →
        (mergeFilters sidebar parsed).categories = setDedup (sidebar.categories ++ cs) ∧
        (mergeFilters sidebar parsed).categories.Nodup ∧
        ∀ x, x ∈ (mergeFilters sidebar parsed).categories ↔
          (x ∈ sidebar.categories ∨ x ∈ cs)) ∧
      (parsed.categories = none →
        (mergeFilters sidebar parsed).categories = sidebar.categories) ∧
      (∀ ss, parsed.sources = some ss → ss ≠ [] →
        (mergeFilters sidebar parsed).source = ss) ∧
      (parsed.sources = none → (mergeFilters sidebar parsed).source = sidebar.source) := by
  intro s p
  refine ⟨?_, ?_, ?_, ?_, ?_, ?_, ?_, ?_⟩
  · intro pr hpr
    rw [mergeFilters_priceRange, hpr]
  · intro h
    rw [mergeFilters_priceRange, h]
  · intro bs hbs hne
    have h1 : (mergeFilters s p).brands = setDedup (s.brands ++ bs) := by
      rw [mergeFilters_brands, hbs]
      exact if_pos (List.length_pos.mpr hne)
    refine ⟨h1, ?_, ?_⟩
    · rw [h1]
      exact setDedup_nodup _
    · intro x
      rw [h1, mem_setDedup, List.mem_append]
  · intro h
    rw [mergeFilters_brands, h]
  · intro cs hcs hne
    have h1 : (mergeFilters s p).categories = setDedup (s.categories ++ cs) := by
      rw [mergeFilters_categories, hcs]
      exact if_pos (List.length_pos.mpr hne)
    refine ⟨h1, ?_, ?_⟩
    · rw [h1]
      exact setDedup_nodup _
    · intro x
      rw [h1, mem_setDedup, List.mem_append]
  · intro h
    rw [mergeFilters_categories, h]
  · intro ss hss hne
    rw [mergeFilters_source, hss]
    exact if_pos (List.length_pos.mpr hne)
  · intro h
    rw [mergeFilters_source, h]

/-- C2 witness: override and duplicate-free union at a concrete pair of
inputs (a duplicated sidebar brand list unioned with a query list). -/
theorem merge_precedence_spec_witness :
    (mergeFilters
      { priceRange := (0, 200000), categories := [], brands := ["HP", "HP"], source := [] }
      { priceRange := some (10000, 50000), brands := some ["Dell", "HP"] }).priceRange =
        (10000, 50000) ∧
    (mergeFilters
      { priceRange := (0, 200000), categories := [], brands := ["HP", "HP"], source := [] }
      { priceRange := some (10000, 50000), brands := some ["Dell", "HP"] }).brands.Nodup :=
  ⟨(merge_precedence_spec _ _).1 _ rfl,
   ((merge_precedence_spec _ _).2.2.1 ["Dell", "HP"] rfl (by simp)).2.1⟩

/-- C4: the Context Router classifies "hello" with empty history as
casual; any message containing "laptop" (after lower-casing and
trimming) as non-casual, the product keyword overriding the greeting;
"which one is better" against a history whose last assistant turn
carried two items as contextual with exactly those two prior items; and
the same message with empty history as fresh. -/
theorem context_router_spec :
    route "hello" [] = RouteKind.casual ∧
    (∀ message : String, containsStr (jsTrim (jsToLower message)) "laptop" = true →
      isCasualMessage message = false) ∧
    route "which one is better" historyTwoItems = RouteKind.contextual [p1, p2] ∧
    (lastAssistantProducts historyTwoItems).length = 2 ∧
    route "which one is better" [] = RouteKind.fresh := by
  refine ⟨by decide, ?_, by decide, by decide, by decide⟩
  intro m h
  simp only [isCasualMessage, productKeywords, List.any_cons, h, Bool.true_or, if_true]

/-- C4 witness: the keyword-override clause applied to the concrete
greeting "hello laptop". -/
theorem context_router_spec_witness : isCasualMessage "hello laptop" = false :=
  context_router_spec.2.1 "hello laptop" (by decide)

/-- C5: on the fresh path, when the query implies a complete system with
no accessory keyword and the merged upper price bound is positive and
below the 25000 realism cut, the handler short-circuits before the
embedding and retrieval calls (both counters 0), returning zero items and
the infeasible-budget guidance text quoting the class's realistic floor. -/
theorem budget_guard_spec :
    ∀ (body : ChatBody) (ext : Externals),
      route body.message body.conversationHistory = RouteKind.fresh →
      isLookingForCompleteSystem (jsToLower body.message) = true →
      isLookingForAccessories (jsToLower body.message) = false →
      0 < (mergeFilters body.filters ext.parseQueryResult).priceRange.2 →
      (mergeFilters body.filters ext.parseQueryResult).priceRange.2 < 25000 →
      (POST body ext).products = [] ∧
      (POST body ext).searchCalls = 0 ∧
      (POST body ext).embedCalls = 0 ∧
      (POST body ext).model = "unrealistic-budget" ∧
      (POST body ext).content =
        budgetSuggestionMessage (budgetProductType (jsToLower body.message))
          (budgetRealisticFloor (budgetProductType (jsToLower body.message)))
          (mergeFilters body.filters ext.parseQueryResult).priceRange.2 := by
  intro body ext hroute hsys hacc hpos hlt
  simp only [POST, hroute, hsys, hacc, Bool.not_false, Bool.true_and,
    decide_eq_true (show (mergeFilters body.filters ext.parseQueryResult).priceRange.2 > 0
      from hpos),
    decide_eq_true hlt, Bool.and_self, if_true]
  exact ⟨trivial, trivial, trivial, trivial, trivial⟩

/-- C5 witness: the guard theorem applied to the spec's concrete
scenario — query "gaming laptop", merged upper bound 15000, empty
history — with the quoted floor 30000. -/
theorem budget_guard_spec_witness :
    (POST gamingLaptopBody budgetExt).products = [] ∧
    (POST gamingLaptopBody budgetExt).searchCalls = 0 ∧
    (POST gamingLaptopBody budgetExt).content =
      budgetSuggestionMessage "laptop" 30000 15000 := by
  have h := budget_guard_spec gamingLaptopBody budgetExt (by decide) (by decide) (by decide)
    (by decide) (by decide)
  refine ⟨h.1, h.2.1, ?_⟩
  rw [h.2.2.2.2]
  decide

/-- Searching for a single character past a prefix that lacks it finds
it at the offset position. -/
theorem firstIdxOf_char_append {c : Char} {xs : List Char} (h : c ∉ xs) (ys : List Char) :
    firstIdxOf [c] (xs ++ ys) = (firstIdxOf [c] ys).map (· + xs.length) := by
  induction xs with
  | nil =>
    simp only [List.nil_append, List.length_nil]
    cases firstIdxOf [c] ys <;> simp
  | cons a as ih =>
    have hca : c ≠ a := by
      intro he
      exact h (he ▸ List.mem_cons_self a as)
    have h' : c ∉ as := fun hm => h (List.mem_cons_of_mem _ hm)
    have hpre : (([c] : List Char).isPrefixOf (a :: (as ++ ys))) = false := by
      simp [List.isPrefixOf, beq_eq_false_iff_ne.mpr hca]
    rw [List.cons_append]
    simp only [firstIdxOf, hpre, Bool.false_eq_true, if_false]
    rw [ih h']
    cases firstIdxOf [c] ys <;> simp [List.length_cons, Nat.add_assoc]

/-- Dropping the first list plus `n` drops `n` of the second. -/
theorem drop_append_add (xs ys : List Char) (n : Nat) :
    (xs ++ ys).drop (xs.length + n) = ys.drop n := by
  rw [← List.drop_drop, List.drop_left]

/-- The bare selection regex on `narr ++ obj` matches exactly `obj` when
the narrative has no opening brace and `obj` is an object opening with a
brace, immediately followed by the key, whose first subsequent closing
brace is its last character. -/
theorem bareMatchRange_append {narr obj : List Char} {j : Nat} (h : '\x7b' ∉ narr)
    (hbrace : firstIdxOf ['\x7b'] obj = some 0)
    (hkey : firstIdxOf selectionKey (obj.drop 1) = some 0)
    (hclose : firstIdxOf ['\x7d'] (obj.drop (1 + selectionKey.length)) = some j)
    (hlen : 1 + selectionKey.length + j + 1 = obj.length) :
    bareMatchRange (narr ++ obj) = some (narr.length, narr.length + obj.length) := by
  have h1 : firstIdxOf ['\x7b'] (narr ++ obj) = some narr.length := by
    rw [firstIdxOf_char_append h obj, hbrace, Option.map_some']
    simp
  have h2 : (narr ++ obj).drop (narr.length + 1) = obj.drop 1 := drop_append_add narr obj 1
  have h3 : (narr ++ obj).drop (narr.length + 1 + 0 + selectionKey.length) =
      obj.drop (1 + selectionKey.length) := by
    rw [Nat.add_zero, Nat.add_assoc]
    exact drop_append_add narr obj _
  simp only [bareMatchRange, h1, h2, hkey, h3, hclose]
  congr 2
  omega

/-- The fenced regex cannot match a string with no opening brace. -/
theorem tryFencedAt_none {s : List Char} (h : '\x7b' ∉ s) (i : Nat) :
    tryFencedAt s i = none := by
  have hbr : ∀ cs : Nat, ((s.drop cs).head? == some '\x7b') = false := by
    intro cs
    cases hh : (s.drop cs).head? with
    | none => simp
    | some c =>
      by_cases hc : c = '\x7b'
      · exact absurd (List.mem_of_mem_drop (List.mem_of_mem_head? (hc ▸ hh))) h
      · simp [hc]
  simp only [tryFencedAt, hbr, Bool.false_eq_true, if_false, ite_self]

/-- Scanning for the fenced regex fails on a brace-free string. -/
theorem fencedMatch_none {s : List Char} (h : '\x7b' ∉ s) : fencedMatch s = none := by
  have hall : ∀ fuel i, fencedFind s i fuel = none := by
    intro fuel
    induction fuel with
    | zero => intro i; rfl
    | succ n ih =>
      intro i
      simp only [fencedFind, tryFencedAt_none h, ih]
  exact hall _ 0

/-- On a raw output of shape `narr ++ obj` (narrative without an opening
brace, trailing selection object), the extraction matches exactly `obj`
and the stripping step returns the trimmed narrative. -/
theorem selectionMatch_append {narr obj : String} {j : Nat} (h : '\x7b' ∉ narr.data)
    (hbrace : firstIdxOf ['\x7b'] obj.data = some 0)
    (hkey : firstIdxOf selectionKey (obj.data.drop 1) = some 0)
    (hclose : firstIdxOf ['\x7d'] (obj.data.drop (1 + selectionKey.length)) = some j)
    (hlen : 1 + selectionKey.length + j + 1 = obj.data.length) :
    selectionMatch (narr ++ obj) = some obj ∧
    stripSelection (narr ++ obj) = jsTrim narr := by
  have hdata : (narr ++ obj).data = narr.data ++ obj.data := String.data_append narr obj
  have hr : bareMatchRange ((narr ++ obj).data) =
      some (narr.data.length, narr.data.length + obj.data.length) := by
    rw [hdata]
    exact bareMatchRange_append h hbrace hkey hclose hlen
  have hdrop : (narr.data ++ obj.data).drop (narr.data.length + obj.data.length) = [] := by
    rw [drop_append_add, List.drop_length]
  constructor
  · simp only [selectionMatch, hr]
    rw [hdata, List.drop_left]
    have harith : narr.data.length + obj.data.length - narr.data.length = obj.data.length := by
      omega
    rw [harith, List.take_length]
  · simp only [stripSelection, hr]
    rw [hdata, List.take_left, hdrop, List.append_nil, fencedMatch_none h]

/-- The number of items selected by id equals the number of in-range
(1-based) references. -/
theorem selectByIds_length (products : List Product) (ids : List Nat) :
    (selectByIds products ids).length =
      (ids.filter (fun id => decide (1 ≤ id) && decide (id ≤ products.length))).length := by
  induction ids with
  | nil => rfl
  | cons id rest ih =>
    simp only [selectByIds, beq_iff_eq] at ih ⊢
    rw [List.filterMap_cons, List.filter_cons]
    by_cases h0 : id = 0
    · subst h0
      simp [ih]
    · by_cases hle : id ≤ products.length
      · have hlt : id - 1 < products.length := by omega
        simp [h0, List.getElem?_eq_getElem hlt, Nat.one_le_iff_ne_zero.mpr h0, hle, ih]
      · have hnone : products[id - 1]? = none := List.getElem?_eq_none (by omega)
        simp [h0, hnone, hle, ih]

/-- C6 (amended): for a raw output `narrative ++ obj` with `obj` the
canonical selection object referencing positions [1, 3], provided the
narrative contains no opening brace, the resolver returns exactly
candidates 1 and 3 of the 5-candidate list, in that order, and the
returned narrative is the trimmed narrative prefix (the object is
stripped without trace; NB code fencing preceding the object is not
removed, see the counterexample). -/
theorem selection_resolver_amended :
    ∀ (narrative : String) (c1 c2 c3 c4 c5 : Product) (intent : Option Intent),
      '\x7b' ∉ narrative.data →
      resolveDisplayFresh (narrative ++ selObj13) [c1, c2, c3, c4, c5] intent =
        ([c1, c3], jsTrim narrative) := by
  intro narrative c1 c2 c3 c4 c5 intent h
  obtain ⟨hm, hs⟩ := @selectionMatch_append narrative selObj13 8 h
    (by decide) (by decide) (by decide) (by decide)
  have hids : selectedIdsOf (narrative ++ selObj13) = some [1, 3] := by
    unfold selectedIdsOf
    rw [hm]
    decide
  simp only [resolveDisplayFresh, selectedIdsAndContent, hids, hs]
  rfl

/-- C6 (counterexample): the claim fails as stated.  With a stray opening
brace in the narrative the regex match is unparsable, so the resolver
falls back (returning all five candidates, not [1, 3]) and the selection
object text survives in the narrative; and with a fenced object the items
are right but the code fencing is not stripped. -/
theorem selection_resolver_counterexample :
    (resolveDisplayFresh c6BadContent sampleFive none).1 ≠ [p1, p3] ∧
    containsStr (resolveDisplayFresh c6BadContent sampleFive none).2
      "selected_product_ids" = true ∧
    (resolveDisplayFresh c6FencedContent sampleFive none).1 = [p1, p3] ∧
    containsStr (resolveDisplayFresh c6FencedContent sampleFive none).2 "```" = true := by
  refine ⟨by decide, by decide, by decide, by decide⟩

/-- C6 witness: the amended theorem applied to a concrete brace-free
narrative over the five sample candidates. -/
theorem selection_resolver_amended_witness :
    resolveDisplayFresh ("I suggest these two. " ++ selObj13) sampleFive none =
      ([p1, p3], jsTrim "I suggest these two. ") :=
  selection_resolver_amended "I suggest these two. " p1 p2 p3 p4 p5 none (by decide)

/-- C7: when no selection object can be parsed from the raw output, the
resolver falls back to the intent-keyed positional slice of the candidate
list in its existing order (single → 1, comparison → 3, multiple → 5,
default 5), leaving the narrative unchanged; in particular with intent
comparison it returns exactly the first 3 of the 5 candidates.  The
fallback is an ordinary successful result of the total resolver, not a
failure. -/
theorem fallback_slice_spec :
    (∀ (content : String) (products : List Product) (intent : Option Intent),
      selectedIdsOf content = none →
      (resolveDisplayFresh content products intent).1 = products.take (sliceCount intent) ∧
      (resolveDisplayFresh content products intent).2 = content) ∧
    (∀ a, sliceCount (some ⟨ProductCount.single, a⟩) = 1) ∧
    (∀ a, sliceCount (some ⟨ProductCount.comparison, a⟩) = 3) ∧
    (∀ a, sliceCount (some ⟨ProductCount.multiple, a⟩) = 5) ∧
    sliceCount none = 5 ∧
    (resolveDisplayFresh c7Content sampleFive
      (some ⟨ProductCount.comparison, QueryAction.compare⟩)).1 = [p1, p2, p3] := by
  refine ⟨?_, fun a => rfl, fun a => rfl, fun a => rfl, rfl, by decide⟩
  intro content products intent h
  simp only [resolveDisplayFresh, selectedIdsAndContent, h]
  exact ⟨rfl, trivial⟩

/-- C7 witness: the fallback slice applied to a concrete unparsable
output with intent comparison. -/
theorem fallback_slice_spec_witness :
    (resolveDisplayFresh c7Content sampleFive
      (some ⟨ProductCount.comparison, QueryAction.compare⟩)).1 =
      sampleFive.take (sliceCount (some ⟨ProductCount.comparison, QueryAction.compare⟩)) :=
  (fallback_slice_spec.1 c7Content sampleFive _ (by decide)).1

/-- C8 (amended): a fresh-path display built from a parsed non-empty
selection is the 1-indexed mapping of the declared references with
out-of-range references silently dropped; hence it is a subset of the
candidates whose length equals the number of in-range references (the
full reference count exactly when all references are in range). -/
theorem selected_display_amended :
    ∀ (content : String) (products : List Product) (intent : Option Intent) (ids : List Nat),
      selectedIdsOf content = some ids → ids ≠ [] →
      (resolveDisplayFresh content products intent).1 = selectByIds products ids ∧
      (∀ p ∈ (resolveDisplayFresh content products intent).1, p ∈ products) ∧
      (resolveDisplayFresh content products intent).1.length =
        (ids.filter (fun id => decide (1 ≤ id) && decide (id ≤ products.length))).length := by
  intro content products intent ids h hne
  have hdisp : (resolveDisplayFresh content products intent).1 = selectByIds products ids := by
    simp only [resolveDisplayFresh, selectedIdsAndContent, h]
    rw [if_pos (List.length_pos.mpr hne)]
  refine ⟨hdisp, ?_, ?_⟩
  · intro p hp
    rw [hdisp] at hp
    simp only [selectByIds, List.mem_filterMap] at hp
    obtain ⟨id, _, hid⟩ := hp
    by_cases h0 : id = 0
    · rw [if_pos (by simp [h0])] at hid
      exact absurd hid (by simp)
    · rw [if_neg (by simp [h0])] at hid
      exact List.getElem?_mem hid
  · rw [hdisp]
    exact selectByIds_length products ids

/-- C8 (counterexample): with declared references [1, 99] against the
5-candidate list, the display length is 1, not the reference count 2 —
the claim's "length matches the reference count" fails once an
out-of-range reference is dropped. -/
theorem selected_display_counterexample :
    selectedIdsOf c8Content = some [1, 99] ∧
    (resolveDisplayFresh c8Content sampleFive none).1.length = 1 ∧
    (resolveDisplayFresh c8Content sampleFive none).1.length ≠ ([1, 99] : List Nat).length := by
  refine ⟨by decide, by decide, by decide⟩

/-- C8 witness: the amended theorem applied to the [1, 99] fixture. -/
theorem selected_display_witness :
    (resolveDisplayFresh c8Content sampleFive none).1 = selectByIds sampleFive [1, 99] ∧
    (resolveDisplayFresh c8Content sampleFive none).1.length =
      (([1, 99] : List Nat).filter
        (fun id => decide (1 ≤ id) && decide (id ≤ sampleFive.length))).length := by
  have h := selected_display_amended c8Content sampleFive none [1, 99] (by decide) (by decide)
  exact ⟨h.1, h.2.2⟩

/-- C9: a parsed selection object declaring an empty reference list does
not yield zero display items — the resolver applies the same intent-keyed
fallback slice as the unparsable case (non-empty whenever any candidates
exist); only a non-empty declared list whose references are all out of
range yields zero display items. -/
theorem empty_selection_spec :
    (∀ (narrative : String) (products : List Product) (intent : Option Intent),
      '\x7b' ∉ narrative.data →
      (resolveDisplayFresh (narrative ++ selObjEmpty) products intent).1 =
        products.take (sliceCount intent) ∧
      (products ≠ [] →
        (resolveDisplayFresh (narrative ++ selObjEmpty) products intent).1 ≠ [])) ∧
    (∀ (content : String) (products : List Product) (intent : Option Intent) (ids : List Nat),
      selectedIdsOf content = some ids → ids ≠ [] →
      (∀ id ∈ ids, id = 0 ∨ products.length < id) →
      (resolveDisplayFresh content products intent).1 = []) := by
  constructor
  · intro narrative products intent h
    obtain ⟨hm, hs⟩ := @selectionMatch_append narrative selObjEmpty 4 h
      (by decide) (by decide) (by decide) (by decide)
    have hids : selectedIdsOf (narrative ++ selObjEmpty) = some [] := by
      unfold selectedIdsOf
      rw [hm]
      decide
    have hdisp : (resolveDisplayFresh (narrative ++ selObjEmpty) products intent).1 =
        products.take (sliceCount intent) := by
      simp only [resolveDisplayFresh, selectedIdsAndContent, hids]
      rfl
    refine ⟨hdisp, fun hne hempty => ?_⟩
    have hlen : (products.take (sliceCount intent)).length = 0 := by
      rw [← hdisp, hempty]
      rfl
    rw [List.length_take] at hlen
    have hpos : 0 < products.length := List.length_pos.mpr hne
    have hslice : 0 < sliceCount intent := by
      rcases intent with _ | ⟨pc, a⟩
      · simp [sliceCount]
      · cases pc <;> simp [sliceCount]
    rcases Nat.min_eq_zero_iff.mp hlen with h' | h' <;> omega
  · intro content products intent ids h hne hout
    have hdisp : (resolveDisplayFresh content products intent).1 = selectByIds products ids := by
      simp only [resolveDisplayFresh, selectedIdsAndContent, h]
      rw [if_pos (List.length_pos.mpr hne)]
    rw [hdisp]
    simp only [selectByIds, List.filterMap_eq_nil_iff]
    intro id hid
    rcases hout id hid with h0 | hgt
    · simp [h0]
    · by_cases h0' : id = 0
      · simp [h0']
      · simp only [beq_eq_false_iff_ne.mpr h0', Bool.false_eq_true, if_false]
        exact List.getElem?_eq_none (by omega)

/-- C9 witness: the empty-selection fallback applied to a concrete
output ending in the empty-selection object over the five samples. -/
theorem empty_selection_spec_witness :
    (resolveDisplayFresh ("Nothing specific selected. " ++ selObjEmpty) sampleFive none).1 =
      sampleFive.take (sliceCount none) ∧
    (resolveDisplayFresh ("Nothing specific selected. " ++ selObjEmpty) sampleFive none).1 ≠
      [] := by
  have h := empty_selection_spec.1 "Nothing specific selected. " sampleFive none (by decide)
  exact ⟨h.1, h.2 (by decide)⟩

/-- C10: on the contextual follow-up path, an unparsable generator output
yields the entire prior item list as display items, while a parsed
non-empty selection yields the referenced prior items with out-of-range
references dropped; no retrieval or embedding call is issued on this
path. -/
theorem contextual_resolve_spec :
    ∀ (body : ChatBody) (ext : Externals) (prev : List Product),
      route body.message body.conversationHistory = RouteKind.contextual prev →
      (selectedIdsOf ext.llmContent = none → (POST body ext).products = prev) ∧
      (∀ ids, selectedIdsOf ext.llmContent = some ids → ids ≠ [] →
        (POST body ext).products = selectByIds prev ids) ∧
      (POST body ext).searchCalls = 0 ∧
      (POST body ext).embedCalls = 0 := by
  intro body ext prev hroute
  refine ⟨?_, ?_, ?_, ?_⟩
  · intro h
    simp only [POST, hroute, resolveDisplayContextual, selectedIdsAndContent, h]
    rfl
  · intro ids h hne
    simp only [POST, hroute, resolveDisplayContextual, selectedIdsAndContent, h]
    rw [if_pos (List.length_pos.mpr hne)]
  · simp only [POST, hroute]
  · simp only [POST, hroute]

/-- C10 witness: the follow-up theorem applied to the two-item history
with a selection-free generator output, displaying both prior items. -/
theorem contextual_resolve_spec_witness :
    (POST followUpBody plainLlmExt).products = [p1, p2] := by
  have h := contextual_resolve_spec followUpBody plainLlmExt [p1, p2] (by decide)
  exact h.1 (by decide)

end ConCommerce
